import Mathlib

/-!
# Verification of the `pokemonApi` data-access layer

Shallow embedding of `src/api/services/pokemonApi.js`: JavaScript values,
the time-bounded result cache, loading-state registry, the generic fetch
wrapper with error classification, the domain operations
(`searchPokemon`, `getPokemonList`, `getPokemonSpecies`) and the batch
fetcher.  Time (`Date.now()`) is passed explicitly as a `Nat`, the network
is an oracle `String → FetchOutcome`, and every operation returns its
result together with the updated cache, loading snapshot and the list of
observable events (loading-state notifications and outgoing network
calls).
-/

set_option maxHeartbeats 1600000

namespace PokemonApi

/-- JavaScript values, as far as the service manipulates them: `null`,
`undefined`, booleans, (integer) numbers, strings, arrays and plain
objects (field lists in insertion order). -/
inductive JSValue where
  | null
  | undefined
  | bool (b : Bool)
  | num (n : Int)
  | str (s : String)
  | arr (elems : List JSValue)
  | obj (fields : List (String × JSValue))
  deriving Repr

/-- JavaScript truthiness: `null`, `undefined`, `false`, `0` and `""` are
falsy; every array and object is truthy. -/
def truthy : JSValue → Bool
  | .null => false
  | .undefined => false
  | .bool b => b
  | .num n => n != 0
  | .str s => !(s == "")
  | .arr _ => true
  | .obj _ => true

/-- `Array.isArray`. -/
def isArray : JSValue → Bool
  | .arr _ => true
  | _ => false

/-- Strict comparison with `null` (`result !== null`). -/
def isNull : JSValue → Bool
  | .null => true
  | _ => false

/-- Field lookup in an object's field list. -/
def getFieldIn : List (String × JSValue) → String → JSValue
  | [], _ => .undefined
  | (k, v) :: rest, name => if k = name then v else getFieldIn rest name

/-- JavaScript property access `v.name`: `undefined` when the property is
missing or the value is not an object.  (In JavaScript, property access on
`null`/`undefined` throws a `TypeError`; no verified claim evaluates the
embedding on such an access.) -/
def getField : JSValue → String → JSValue
  | .obj fields, name => getFieldIn fields name
  | _, _ => .undefined

mutual

/-- `String(v)` coercion, as the service uses it in template literals and
`String(query)`. -/
def jsToString : JSValue → String
  | .null => "null"
  | .undefined => "undefined"
  | .bool b => if b then "true" else "false"
  | .num n => toString n
  | .str s => s
  | .arr elems => jsListToString elems
  | .obj _ => "[object Object]"

/-- `Array.prototype.toString`: elements joined with `,`. -/
def jsListToString : List JSValue → String
  | [] => ""
  | [x] => jsElemToString x
  | x :: rest => jsElemToString x ++ "," ++ jsListToString rest

/-- Array elements stringify like `String(v)` except that `null` and
`undefined` become the empty string. -/
def jsElemToString : JSValue → String
  | .null => ""
  | .undefined => ""
  | v => jsToString v

end

/-- Whether the character list starts with the given pattern. -/
def startsWithChars : List Char → List Char → Bool
  | _, [] => true
  | [], _ :: _ => false
  | c :: cs, p :: ps => p == c && startsWithChars cs ps

/-- Whether the pattern occurs as a contiguous run of the character
list. -/
def hasSubstr : List Char → List Char → Bool
  | [], pat => pat.isEmpty
  | s@(_ :: rest), pat => startsWithChars s pat || hasSubstr rest pat

/-- `String.prototype.includes`: substring occurrence. -/
def strIncludes (s pat : String) : Bool :=
  hasSubstr s.toList pat.toList

/-- The whitespace class trimmed by `String.prototype.trim` (the ASCII
whitespace characters plus NBSP and the BOM; the exotic Unicode space
separators are not modelled — none can reach a claim). -/
def jsIsSpace (c : Char) : Bool :=
  c == ' ' || c == '\t' || c == '\n' || c == '\r' || c == '\x0b' || c == '\x0c'
    || c == '\u00a0' || c == '\ufeff'

/-- `String.prototype.trim`: strip leading and trailing whitespace. -/
def jsTrim (s : String) : String :=
  String.mk (((s.toList.dropWhile jsIsSpace).reverse.dropWhile jsIsSpace).reverse)

/-- `String.prototype.toLowerCase` on the alphabet the service can
meet: ASCII letters are folded. -/
def jsCharToLower (c : Char) : Char :=
  if 'A' ≤ c && c ≤ 'Z' then Char.ofNat (c.toNat + 32) else c

/-- `String.prototype.toLowerCase`. -/
def jsToLower (s : String) : String :=
  String.mk (s.toList.map jsCharToLower)

/-! ## Cache (`CACHE_DURATION`, `cache`, `getCacheKey`, `getCachedData`,
`setCachedData`) -/

/-- `const CACHE_DURATION = 5 * 60 * 1000` (milliseconds). -/
def CACHE_DURATION : Nat := 5 * 60 * 1000

/-- One cache entry: `{ data, timestamp }`. -/
structure CacheEntry where
  data : JSValue
  timestamp : Nat
  deriving Repr

/-- The cache: a `Map` from string keys to entries, modelled as an
association list with at most one binding per key (maintained by
`cacheSet`/`cacheDelete`). -/
abbrev Cache := List (String × CacheEntry)

/-- `cache.get(key)`. -/
def cacheFind : Cache → String → Option CacheEntry
  | [], _ => none
  | e :: rest, k => if e.1 = k then some e.2 else cacheFind rest k

/-- `cache.set(key, entry)`: replace the existing binding, else append. -/
def cacheSet : Cache → String → CacheEntry → Cache
  | [], k, v => [(k, v)]
  | e :: rest, k, v => if e.1 = k then (k, v) :: rest else e :: cacheSet rest k v

/-- `cache.delete(key)`. -/
def cacheDelete (c : Cache) (k : String) : Cache :=
  c.filter (fun e => !(e.1 == k))

/-- Hexadecimal digit (uppercase), for percent-encoding. -/
def hexDigit (n : Nat) : Char :=
  if n < 10 then Char.ofNat (48 + n) else Char.ofNat (55 + n)

/-- Percent-encoding of one byte, `%XX`. -/
def encodeByte (b : UInt8) : String :=
  "%" ++ String.singleton (hexDigit (b.toNat / 16)) ++ String.singleton (hexDigit (b.toNat % 16))

/-- `application/x-www-form-urlencoded` encoding of one character, as
`URLSearchParams.toString` performs it: ASCII alphanumerics and `*-._`
kept, space becomes `+`, everything else percent-encodes its UTF-8
bytes. -/
def formEncodeChar (c : Char) : String :=
  if ('a' ≤ c && c ≤ 'z') || ('A' ≤ c && c ≤ 'Z') || ('0' ≤ c && c ≤ '9')
      || c == '*' || c == '-' || c == '.' || c == '_' then
    String.singleton c
  else if c == ' ' then "+"
  else String.join (((String.singleton c).toUTF8.toList).map encodeByte)

/-- Form-encoding of a string. -/
def formEncode (s : String) : String :=
  String.join (s.toList.map formEncodeChar)

/-- One `key=value` pair of the serialization. -/
def encodePair (p : String × String) : String :=
  formEncode p.1 ++ "=" ++ formEncode p.2

/-- `new URLSearchParams(params).toString()`: pairs serialized in the
order supplied, joined with `&`. -/
def serializeParams : List (String × String) → String
  | [] => ""
  | [p] => encodePair p
  | p :: rest => encodePair p ++ "&" ++ serializeParams rest

/-- `getCacheKey(url, params = {})`: the URL, followed by `?` and the
`URLSearchParams` serialization when at least one parameter is given.
Parameters are modelled as the object's entries in insertion order. -/
def getCacheKey (url : String) (params : List (String × String) := []) : String :=
  if params.length > 0 then url ++ "?" ++ serializeParams params else url

/-- `getCachedData(key)`: returns the entry's data when it is younger
than `CACHE_DURATION`; deletes a stale entry and returns `null`;
returns `null` (cache untouched) when no entry exists.  Returns the
possibly-updated cache alongside. -/
def getCachedData (c : Cache) (key : String) (now : Nat) : JSValue × Cache :=
  match cacheFind c key with
  | some cached =>
      if now - cached.timestamp < CACHE_DURATION then (cached.data, c)
      else (JSValue.null, cacheDelete c key)
  | none => (JSValue.null, c)

/-- `setCachedData(key, data)`: unconditional overwrite, timestamp
`Date.now()`. -/
def setCachedData (c : Cache) (key : String) (data : JSValue) (now : Nat) : Cache :=
  cacheSet c key ⟨data, now⟩

/-! ## Loading states and subscribers -/

/-- The three named operations whose loading flags are tracked. -/
inductive Op where
  | searchPokemon
  | getPokemonList
  | getPokemonSpecies
  deriving Repr, DecidableEq

/-- `loadingStates`: one boolean per operation. -/
structure LoadingStates where
  searchPokemon : Bool
  getPokemonList : Bool
  getPokemonSpecies : Bool
  deriving Repr, DecidableEq

/-- Initial loading states: all false. -/
def initialLoadingStates : LoadingStates := ⟨false, false, false⟩

/-- `loadingStates[operation] = isLoading`. -/
def setOp (ls : LoadingStates) (op : Op) (b : Bool) : LoadingStates :=
  match op with
  | .searchPokemon => { ls with searchPokemon := b }
  | .getPokemonList => { ls with getPokemonList := b }
  | .getPokemonSpecies => { ls with getPokemonSpecies := b }

/-- Read one operation's flag. -/
def getOp (ls : LoadingStates) (op : Op) : Bool :=
  match op with
  | .searchPokemon => ls.searchPokemon
  | .getPokemonList => ls.getPokemonList
  | .getPokemonSpecies => ls.getPokemonSpecies

/-- Subscriber callbacks are identity-based; we model each callback by an
identifier and `loadingStateSubscribers` (a JavaScript `Set`) by a
duplicate-free list in insertion order. -/
abbrev Subscribers := List Nat

/-- `subscribeToLoadingState(callback)`: `Set.add` — a no-op when the
callback is already registered. -/
def subscribeToLoadingState (subs : Subscribers) (cb : Nat) : Subscribers :=
  if cb ∈ subs then subs else subs ++ [cb]

/-- The unsubscribe closure returned by `subscribeToLoadingState`:
`Set.delete`. -/
def unsubscribeFromLoadingState (subs : Subscribers) (cb : Nat) : Subscribers :=
  subs.erase cb

/-- `loadingStateSubscribers.forEach(cb => cb({...loadingStates}))`: the
invocations (callback, snapshot copy) performed by one notification, in
set order. -/
def broadcast (subs : Subscribers) (snap : LoadingStates) : List (Nat × LoadingStates) :=
  subs.map (fun cb => (cb, snap))

/-- Observable events of an operation: a loading-state notification
(with the snapshot broadcast to subscribers) or an outgoing network
call. -/
inductive Event where
  | notif (snap : LoadingStates)
  | netCall (url : String)
  deriving Repr, DecidableEq

/-- The network calls among a list of events, in order. -/
def netCalls (events : List Event) : List String :=
  events.filterMap (fun e => match e with | .netCall u => some u | _ => none)

/-- All callback invocations produced by a list of events: each
notification reaches every registered subscriber, in order. -/
def deliveries (subs : Subscribers) (events : List Event) : List (Nat × LoadingStates) :=
  events.flatMap (fun e => match e with | .notif snap => broadcast subs snap | _ => [])

/-! ## Errors and the generic fetch wrapper -/

/-- The two error classes: `PokemonAPIError { message, status, endpoint }`
and `NetworkError { message, endpoint }`.  `status` and `endpoint` are
nullable. -/
inductive APIError where
  | pokemonAPIError (message : String) (status : Option Nat) (endpoint : Option String)
  | networkError (message : String) (endpoint : Option String)
  deriving Repr, DecidableEq

/-- `error.status` as read by `error.status === 404` (a `NetworkError`
has no `status` property, so the strict comparison is false). -/
def errStatus : APIError → Option Nat
  | .pokemonAPIError _ status _ => status
  | .networkError _ _ => none

/-- Outcome of `response.json()`: a decode failure (`SyntaxError`) or a
decoded value. -/
inductive BodyOutcome where
  | decodeErr
  | value (v : JSValue)
  deriving Repr

/-- An HTTP response as the service reads it: status, statusText, the
`content-type` header (`null` when absent) and the body's JSON decode
outcome. -/
structure HttpResponse where
  status : Nat
  statusText : String
  contentType : Option String
  body : BodyOutcome
  deriving Repr

/-- Outcome of `fetch(url)`: either the promise rejects with an exception
(`isTypeError` tells whether it is a `TypeError`, `msg` its message), or
a response arrives. -/
inductive FetchOutcome where
  | thrown (isTypeError : Bool) (msg : String)
  | response (r : HttpResponse)
  deriving Repr

/-- `response.ok`: status in the range 200–299. -/
def responseOk (r : HttpResponse) : Bool :=
  decide (200 ≤ r.status ∧ r.status ≤ 299)

/-- `contentType && contentType.includes('application/json')`. -/
def ctIncludesJson : Option String → Bool
  | none => false
  | some s => strIncludes s "application/json"

/-- `typeof data === 'object'` (true for objects, arrays and `null`). -/
def isObjectType : JSValue → Bool
  | .null => true
  | .arr _ => true
  | .obj _ => true
  | _ => false

/-- The result computed by the `try`/`catch` body of
`fetchWithErrorHandling`: status classification of non-2xx responses,
content-type check, JSON decoding, shallow data check, and the `catch`
clause mapping a fetch `TypeError` to `NetworkError`, a `SyntaxError`
to `PokemonAPIError('Invalid JSON response', null, url)` and anything
else to an `Unexpected error`. -/
def fetchCore (outcome : FetchOutcome) (url : String) : Except APIError JSValue :=
  match outcome with
  | .thrown isTypeError msg =>
      if isTypeError && strIncludes msg "fetch" then
        .error (.networkError "Network error: Please check your internet connection" (some url))
      else
        .error (.pokemonAPIError ("Unexpected error: " ++ msg) none (some url))
  | .response r =>
      if !(responseOk r) then
        if r.status = 404 then
          .error (.pokemonAPIError "Resource not found!" (some 404) (some url))
        else if 500 ≤ r.status then
          .error (.pokemonAPIError ("Server error: " ++ r.statusText) (some r.status) (some url))
        else if r.status = 429 then
          .error (.pokemonAPIError "Too many requests. Please try again later." (some 429) (some url))
        else
          .error (.pokemonAPIError ("HTTP Error: " ++ toString r.status ++ " " ++ r.statusText)
            (some r.status) (some url))
      else if !(ctIncludesJson r.contentType) then
        .error (.pokemonAPIError "Invalid response format. Expected JSON" (some r.status) (some url))
      else
        match r.body with
        | .decodeErr => .error (.pokemonAPIError "Invalid JSON response" none (some url))
        | .value v =>
            if !(truthy v) || !(isObjectType v) then
              .error (.pokemonAPIError "Invalid response data" (some r.status) (some url))
            else .ok v

/-- Result of `fetchWithErrorHandling`: classified result, final loading
snapshot, and the events it emitted. -/
structure FetchResult where
  result : Except APIError JSValue
  loading : LoadingStates
  events : List Event
  deriving Repr

/-- `fetchWithErrorHandling(url, operation)`: sets the operation's flag
to true (notifying subscribers), performs the network call, computes the
classified result, and — in the `finally` block, hence on every exit
path — sets the flag back to false (notifying subscribers again). -/
def fetchWithErrorHandling (outcome : FetchOutcome) (url : String) (op : Op)
    (ls : LoadingStates) : FetchResult :=
  let ls1 := setOp ls op true
  let ls2 := setOp ls1 op false
  { result := fetchCore outcome url
    loading := ls2
    events := [.notif ls1, .netCall url, .notif ls2] }

/-! ## Domain operations -/

/-- Result of a domain operation: classified result, final cache, final
loading snapshot, events. -/
structure OpResult where
  result : Except APIError JSValue
  cache : Cache
  loading : LoadingStates
  events : List Event
  deriving Repr

/-- The query pattern `/^[a-zA-Z0-9\-]+$/` on one character. -/
def isQueryChar (c : Char) : Bool :=
  ('a' ≤ c && c ≤ 'z') || ('A' ≤ c && c ≤ 'Z') || ('0' ≤ c && c ≤ '9') || c == '-'

/-- `/^[a-zA-Z0-9\-]+$/.test(s)`: non-empty and every character a letter,
digit or hyphen. -/
def validFormat (s : String) : Bool :=
  !(s == "") && s.toList.all isQueryChar

/-- The normalization `String(query).toLowerCase().trim()` performed by
`searchPokemon`. -/
def normalizeQuery (query : JSValue) : String :=
  jsTrim (jsToLower (jsToString query))

/-- `searchPokemon(query)`: input validation, cache lookup, delegation to
`fetchWithErrorHandling`, Pokémon-shape validation (`id`, `name`,
`sprites`), cache population on success, and remapping of a 404 to
`Pokemon "<original query>" not found`. -/
def searchPokemon (query : JSValue) (net : String → FetchOutcome) (c : Cache)
    (ls : LoadingStates) (now : Nat) : OpResult :=
  if !(truthy query) then
    { result := .error (.pokemonAPIError "Query parameter is required!" none none)
      cache := c, loading := ls, events := [] }
  else
    let normalizedQuery := normalizeQuery query
    if normalizedQuery == "" then
      { result := .error (.pokemonAPIError "Query parameter cannot be empty" none none)
        cache := c, loading := ls, events := [] }
    else if !(validFormat normalizedQuery) then
      { result := .error (.pokemonAPIError
          "Query must contain only alphanumeric characters and hyphens" none none)
        cache := c, loading := ls, events := [] }
    else
      let url := "https://pokeapi.co/api/v2/pokemon/" ++ normalizedQuery
      let cacheKey := getCacheKey url
      let lk := getCachedData c cacheKey now
      if truthy lk.1 then
        { result := .ok lk.1, cache := lk.2, loading := ls, events := [] }
      else
        let fr := fetchWithErrorHandling (net url) url .searchPokemon ls
        match fr.result with
        | .ok data =>
            if !(truthy (getField data "id")) || !(truthy (getField data "name"))
                || !(truthy (getField data "sprites")) then
              { result := .error (.pokemonAPIError "Invalid Pokemon data structure received"
                  none (some url))
                cache := lk.2, loading := fr.loading, events := fr.events }
            else
              { result := .ok data, cache := setCachedData lk.2 cacheKey data now
                loading := fr.loading, events := fr.events }
        | .error e =>
            if errStatus e = some 404 then
              { result := .error (.pokemonAPIError
                  ("Pokemon \"" ++ jsToString query ++ "\" not found") (some 404) (some url))
                cache := lk.2, loading := fr.loading, events := fr.events }
            else
              { result := .error e, cache := lk.2, loading := fr.loading, events := fr.events }

/-- `getPokemonList(limit = 151, offset = 0)`: bounds validation, cache
lookup keyed on the `{limit, offset}` parameters, fetch, list-shape
validation (`results` array, each entry with `name` and `url`), cache
population.  The `catch` clause rethrows unchanged. -/
def getPokemonList (limit offset : Int) (net : String → FetchOutcome) (c : Cache)
    (ls : LoadingStates) (now : Nat) : OpResult :=
  if limit < 1 || limit > 1000 then
    { result := .error (.pokemonAPIError "Limit must be between 1 and 1000" none none)
      cache := c, loading := ls, events := [] }
  else if offset < 0 then
    { result := .error (.pokemonAPIError "Offset must be 0 or greater" none none)
      cache := c, loading := ls, events := [] }
  else
    let url := "https://pokeapi.co/api/v2/pokemon"
    let params := [("limit", toString limit), ("offset", toString offset)]
    let cacheKey := getCacheKey url params
    let lk := getCachedData c cacheKey now
    if truthy lk.1 then
      { result := .ok lk.1, cache := lk.2, loading := ls, events := [] }
    else
      let fullUrl := url ++ "?limit=" ++ toString limit ++ "&offset=" ++ toString offset
      let fr := fetchWithErrorHandling (net fullUrl) fullUrl .getPokemonList ls
      match fr.result with
      | .ok data =>
          if !(truthy (getField data "results")) || !(isArray (getField data "results")) then
            { result := .error (.pokemonAPIError "Invalid Pokemon list data structure received"
                none (some fullUrl))
              cache := lk.2, loading := fr.loading, events := fr.events }
          else
            let results := match getField data "results" with
              | .arr elems => elems
              | _ => []
            let invalidEntries := results.filter (fun p =>
              !(truthy (getField p "name")) || !(truthy (getField p "url")))
            if invalidEntries.length > 0 then
              { result := .error (.pokemonAPIError
                  "Some Pokemon entries have invalid data structure" none (some fullUrl))
                cache := lk.2, loading := fr.loading, events := fr.events }
            else
              { result := .ok data, cache := setCachedData lk.2 cacheKey data now
                loading := fr.loading, events := fr.events }
      | .error e =>
          { result := .error e, cache := lk.2, loading := fr.loading, events := fr.events }

/-- The normalization `String(id).trim()` performed by
`getPokemonSpecies` (no case folding). -/
def normalizeId (id : JSValue) : String :=
  jsTrim (jsToString id)

/-- `getPokemonSpecies(id)`: input validation (`ID` wording), cache
lookup, fetch, species-shape validation (`id`, `name`), cache
population, and remapping of a 404 to
`Pokemon species with ID "<id>" not found`. -/
def getPokemonSpecies (id : JSValue) (net : String → FetchOutcome) (c : Cache)
    (ls : LoadingStates) (now : Nat) : OpResult :=
  if !(truthy id) then
    { result := .error (.pokemonAPIError "ID parameter is required" none none)
      cache := c, loading := ls, events := [] }
  else
    let normalizedId := normalizeId id
    if normalizedId == "" then
      { result := .error (.pokemonAPIError "ID parameter cannot be empty" none none)
        cache := c, loading := ls, events := [] }
    else if !(validFormat normalizedId) then
      { result := .error (.pokemonAPIError
          "ID must contain only alphanumeric characters and hyphens" none none)
        cache := c, loading := ls, events := [] }
    else
      let url := "https://pokeapi.co/api/v2/pokemon-species/" ++ normalizedId
      let cacheKey := getCacheKey url
      let lk := getCachedData c cacheKey now
      if truthy lk.1 then
        { result := .ok lk.1, cache := lk.2, loading := ls, events := [] }
      else
        let fr := fetchWithErrorHandling (net url) url .getPokemonSpecies ls
        match fr.result with
        | .ok data =>
            if !(truthy (getField data "id")) || !(truthy (getField data "name")) then
              { result := .error (.pokemonAPIError
                  "Invalid Pokemon species data structure received" none (some url))
                cache := lk.2, loading := fr.loading, events := fr.events }
            else
              { result := .ok data, cache := setCachedData lk.2 cacheKey data now
                loading := fr.loading, events := fr.events }
        | .error e =>
            if errStatus e = some 404 then
              { result := .error (.pokemonAPIError
                  ("Pokemon species with ID \"" ++ jsToString id ++ "\" not found")
                  (some 404) (some url))
                cache := lk.2, loading := fr.loading, events := fr.events }
            else
              { result := .error e, cache := lk.2, loading := fr.loading, events := fr.events }

/-! ## Batch fetcher

`batchFetchPokemon` maps each window through `async` callbacks under
`Promise.all`.  Each callback runs synchronously up to its first `await`:
all cache lookups (and their lazy evictions) of a window happen, in
order, before any of the window's fetches settles (phase A); the fetch
continuations — decode, cache write, or the `catch` that logs and
returns `null` — run afterwards (phase B).  Windows are processed
sequentially. -/

/-- Phase-A outcome of one slot: a truthy cache hit, or a miss that will
fetch. -/
inductive PhaseASlot where
  | hit (v : JSValue)
  | miss (url : String)
  deriving Repr

/-- Phase A of one window: every slot's cache lookup (with lazy
eviction), in input order. -/
def batchPhaseA (c : Cache) (window : List String) (now : Nat) :
    List PhaseASlot × Cache :=
  match window with
  | [] => ([], c)
  | u :: rest =>
      let lk := getCachedData c (getCacheKey u) now
      let slot := if truthy lk.1 then PhaseASlot.hit lk.1 else PhaseASlot.miss u
      let restRes := batchPhaseA lk.2 rest now
      (slot :: restRes.1, restRes.2)

/-- The fetch continuation of one missed slot: raw `fetch` without the
executor — a non-2xx status throws, `response.json()` may throw, any
failure is caught, logged and replaced by `null`; a decoded body is
cached unconditionally (no domain-shape validation). -/
def batchFetchOne (c : Cache) (u : String) (net : String → FetchOutcome) (now : Nat) :
    JSValue × Cache :=
  match net u with
  | .thrown _ _ => (JSValue.null, c)
  | .response r =>
      if !(responseOk r) then (JSValue.null, c)
      else
        match r.body with
        | .decodeErr => (JSValue.null, c)
        | .value v => (v, setCachedData c (getCacheKey u) v now)

/-- Phase B of one window: resolve every slot, fetching the misses. -/
def batchPhaseB (c : Cache) (slots : List PhaseASlot) (net : String → FetchOutcome)
    (now : Nat) : List JSValue × Cache :=
  match slots with
  | [] => ([], c)
  | .hit v :: rest =>
      let restRes := batchPhaseB c rest net now
      (v :: restRes.1, restRes.2)
  | .miss u :: rest =>
      let one := batchFetchOne c u net now
      let restRes := batchPhaseB one.2 rest net now
      (one.1 :: restRes.1, restRes.2)

/-- One window: phase A then phase B. -/
def batchWindowRun (c : Cache) (window : List String) (net : String → FetchOutcome)
    (now : Nat) : List JSValue × Cache :=
  let pa := batchPhaseA c window now
  batchPhaseB pa.2 pa.1 net now

/-- The `for (let i = 0; i < urls.length; i += batchSize)` loop: windows
of `batchSize` URLs, each window's non-`null` results appended in order.
(For `batchSize = 0` the JavaScript loop never terminates; the model
returns `[]` there, and every theorem about the loop assumes a positive
batch size.) -/
def batchLoop (net : String → FetchOutcome) (now bs : Nat) (c : Cache)
    (urls : List String) : List JSValue × Cache :=
  if h : urls = [] ∨ bs = 0 then ([], c)
  else
    let w := batchWindowRun c (urls.take bs) net now
    let rest := batchLoop net now bs w.2 (urls.drop bs)
    (w.1.filter (fun v => !(isNull v)) ++ rest.1, rest.2)
termination_by urls.length
decreasing_by
  simp only [List.length_drop]
  rcases urls with _ | ⟨x, xs⟩
  · exact absurd (Or.inl rfl) h
  · have hbs : bs ≠ 0 := fun hb => h (Or.inr hb)
    simp only [List.length_cons]
    omega

/-- `batchFetchPokemon(urls, batchSize = 5)`: rejects when `urls` is not
an array; resolves to `[]` for an empty array; otherwise runs the
windowed loop.  Array elements are coerced to strings where the code
interpolates or fetches them. -/
def batchFetchPokemon (urls : JSValue) (bs : Nat) (net : String → FetchOutcome)
    (c : Cache) (now : Nat) : Except APIError (List JSValue) × Cache :=
  match urls with
  | .arr elems =>
      if elems.length = 0 then (.ok [], c)
      else
        let run := batchLoop net now bs c (elems.map jsToString)
        (.ok run.1, run.2)
  | _ => (.error (.pokemonAPIError "URLs parameter must be an array" none none), c)

/-! ## Properties used by the claims -/

/-- The spec's domain-shape invariant on a cached payload: `id`, `name`
and `sprites` present (Pokémon record), or a `results` array (list), or
`id` and `name` (species). -/
def ShapeValidPayload (v : JSValue) : Bool :=
  (truthy (getField v "id") && truthy (getField v "name") && truthy (getField v "sprites"))
    || (truthy (getField v "results") && isArray (getField v "results"))
    || (truthy (getField v "id") && truthy (getField v "name"))

/-- `c'` differs from `c` at most by lazy eviction at time `now`: every
key is either unchanged or was stale and is now gone. -/
def CachePreserved (c c' : Cache) (now : Nat) : Prop :=
  ∀ k, cacheFind c' k = cacheFind c k ∨
    (cacheFind c' k = none ∧
      ∃ e, cacheFind c k = some e ∧ CACHE_DURATION ≤ now - e.timestamp)

/-- The decoded JSON body of a batch item's raw fetch: present exactly
when the response is ok and `response.json()` decodes — the cases in
which the batch caches and returns a payload for the URL. -/
def batchBody : FetchOutcome → Option JSValue
  | .thrown _ _ => none
  | .response r =>
      if responseOk r then
        match r.body with
        | .value v => some v
        | .decodeErr => none
      else none

/-- The outcomes `batchFetchPokemon` may place in the slot of URL `u`,
given the cache `c0` and time `now` at the start of the run: the
decoded body of that URL's own response; a fresh, truthy entry that
`c0` already held under that URL's key; or `null`, exactly when that
URL's fetch yields no decodable ok body. -/
def SlotFor (net : String → FetchOutcome) (c0 : Cache) (now : Nat)
    (u : String) (v : JSValue) : Prop :=
  batchBody (net u) = some v ∨
  (∃ e, cacheFind c0 (getCacheKey u) = some e ∧ now - e.timestamp < CACHE_DURATION ∧
    truthy e.data = true ∧ v = e.data) ∨
  (v = JSValue.null ∧ batchBody (net u) = none)

/-- Invariant of every cache reachable during one `batchFetchPokemon`
run that started from `c0` at time `now` against network `net`: each
binding either was already in `c0` or holds the decoded body `net`
returns for its key (batch cache keys are the URLs themselves). -/
def BatchCacheOK (net : String → FetchOutcome) (now : Nat) (c0 c : Cache) : Prop :=
  ∀ k e, cacheFind c k = some e → cacheFind c0 k = some e ∨ batchBody (net k) = some e.data

/-- Relation between a phase-A slot and its URL: a recorded miss for
that URL, or a hit whose value is a sound outcome for that URL. -/
def PhaseSlotR (net : String → FetchOutcome) (c0 : Cache) (now : Nat)
    (slot : PhaseASlot) (u : String) : Prop :=
  slot = PhaseASlot.miss u ∨ ∃ v, slot = PhaseASlot.hit v ∧ SlotFor net c0 now u v

/-! ## Cache lemmas -/

theorem cacheFind_cacheSet_self (c : Cache) (k : String) (v : CacheEntry) :
    cacheFind (cacheSet c k v) k = some v := by
  induction c with
  | nil => simp [cacheSet, cacheFind]
  | cons e rest ih =>
    by_cases h : e.1 = k
    · simp [cacheSet, cacheFind, h]
    · simp [cacheSet, cacheFind, h, ih]

theorem cacheFind_cacheSet_ne (c : Cache) (k k' : String) (v : CacheEntry)
    (h : k' ≠ k) : cacheFind (cacheSet c k v) k' = cacheFind c k' := by
  have hkk : ¬(k = k') := fun he => h he.symm
  induction c with
  | nil => simp [cacheSet, cacheFind, hkk]
  | cons e rest ih =>
    by_cases he : e.1 = k
    · subst he
      simp [cacheSet, cacheFind, hkk]
    · simp only [cacheSet, if_neg he]
      by_cases he' : e.1 = k'
      · simp [cacheFind, he']
      · simp [cacheFind, he', ih]

theorem cacheFind_cacheDelete_self (c : Cache) (k : String) :
    cacheFind (cacheDelete c k) k = none := by
  induction c with
  | nil => rfl
  | cons e rest ih =>
    simp only [cacheDelete, List.filter_cons] at ih ⊢
    by_cases h : e.1 = k
    · simp [h, ih]
    · simp [h, cacheFind, ih]

theorem cacheFind_cacheDelete_ne (c : Cache) (k k' : String) (h : k' ≠ k) :
    cacheFind (cacheDelete c k) k' = cacheFind c k' := by
  induction c with
  | nil => rfl
  | cons e rest ih =>
    simp only [cacheDelete, List.filter_cons] at ih ⊢
    by_cases he : e.1 = k
    · subst he
      have : ¬(e.1 = k') := fun hx => h hx.symm
      simp [cacheFind, this, ih]
    · by_cases he' : e.1 = k'
      · simp [he, he', cacheFind, h]
      · simp [he, he', cacheFind, ih]

/-- Unfolding `getCachedData` when the key is bound. -/
theorem getCachedData_eq_some (c : Cache) (key : String) (now : Nat)
    (cached : CacheEntry) (hf : cacheFind c key = some cached) :
    getCachedData c key now =
      if now - cached.timestamp < CACHE_DURATION then (cached.data, c)
      else (JSValue.null, cacheDelete c key) := by
  unfold getCachedData
  rw [hf]

/-- Unfolding `getCachedData` when the key is unbound. -/
theorem getCachedData_eq_none (c : Cache) (key : String) (now : Nat)
    (hf : cacheFind c key = none) :
    getCachedData c key now = (JSValue.null, c) := by
  unfold getCachedData
  rw [hf]

/-- The cache returned by a lookup never contains a binding the original
cache did not have. -/
theorem cacheFind_getCachedData_sub (c : Cache) (key : String) (now : Nat)
    (k : String) (e : CacheEntry)
    (h : cacheFind (getCachedData c key now).2 k = some e) :
    cacheFind c k = some e := by
  cases hf : cacheFind c key with
  | none => rw [getCachedData_eq_none c key now hf] at h; exact h
  | some cached =>
    rw [getCachedData_eq_some c key now cached hf] at h
    by_cases ht : now - cached.timestamp < CACHE_DURATION
    · rw [if_pos ht] at h; exact h
    · rw [if_neg ht] at h
      by_cases hk : k = key
      · subst hk
        rw [cacheFind_cacheDelete_self] at h
        cases h
      · rw [cacheFind_cacheDelete_ne c key k hk] at h
        exact h

/-- A lookup changes the cache at most by lazy eviction of the stale
looked-up key. -/
theorem getCachedData_preserved (c : Cache) (key : String) (now : Nat) :
    CachePreserved c (getCachedData c key now).2 now := by
  intro k
  cases hf : cacheFind c key with
  | none => rw [getCachedData_eq_none c key now hf]; exact Or.inl rfl
  | some cached =>
    rw [getCachedData_eq_some c key now cached hf]
    by_cases ht : now - cached.timestamp < CACHE_DURATION
    · rw [if_pos ht]; exact Or.inl rfl
    · rw [if_neg ht]
      by_cases hk : k = key
      · subst hk
        exact Or.inr ⟨cacheFind_cacheDelete_self c k,
          cached, hf, Nat.le_of_not_lt ht⟩
      · exact Or.inl (cacheFind_cacheDelete_ne c key k hk)

/-! ## Claim theorems -/

/-- C5 (confirmed): `getCachedData` is fresh-or-absent with lazy
eviction: a fresh entry (strictly younger than `CACHE_DURATION`, which
is 5 minutes in milliseconds) is returned with the cache untouched; a
stale entry yields `null` and is deleted (other keys untouched); a
missing key yields `null` with the cache untouched. -/
theorem getCachedData_fresh_or_absent :
    CACHE_DURATION = 5 * 60 * 1000 ∧
    ∀ (c : Cache) (key : String) (now : Nat),
      (∀ e, cacheFind c key = some e → now - e.timestamp < CACHE_DURATION →
        getCachedData c key now = (e.data, c)) ∧
      (∀ e, cacheFind c key = some e → CACHE_DURATION ≤ now - e.timestamp →
        getCachedData c key now = (JSValue.null, cacheDelete c key) ∧
        cacheFind (getCachedData c key now).2 key = none ∧
        ∀ k, k ≠ key → cacheFind (getCachedData c key now).2 k = cacheFind c k) ∧
      (cacheFind c key = none → getCachedData c key now = (JSValue.null, c)) := by
  refine ⟨rfl, fun c key now => ⟨?_, ?_, ?_⟩⟩
  · intro e he ht
    rw [getCachedData_eq_some c key now e he, if_pos ht]
  · intro e he ht
    have hlt : ¬(now - e.timestamp < CACHE_DURATION) := Nat.not_lt.mpr ht
    have hmain : getCachedData c key now = (JSValue.null, cacheDelete c key) := by
      rw [getCachedData_eq_some c key now e he, if_neg hlt]
    refine ⟨hmain, ?_, ?_⟩
    · rw [hmain]; exact cacheFind_cacheDelete_self c key
    · intro k hk
      rw [hmain]; exact cacheFind_cacheDelete_ne c key k hk
  · intro he
    exact getCachedData_eq_none c key now he

/-- C5 witness: a fresh hit, a stale eviction and a miss at concrete
inputs. -/
theorem getCachedData_fresh_or_absent_witness :
    getCachedData [("k", ⟨JSValue.num 5, 100⟩)] "k" 200 =
      (JSValue.num 5, [("k", ⟨JSValue.num 5, 100⟩)]) ∧
    getCachedData [("k", ⟨JSValue.num 5, 100⟩)] "k" 300100 = (JSValue.null, []) ∧
    getCachedData [] "k" 0 = (JSValue.null, []) := by
  refine ⟨?_, ?_, ?_⟩
  · exact (getCachedData_fresh_or_absent.2 [("k", ⟨JSValue.num 5, 100⟩)] "k" 200).1
      ⟨JSValue.num 5, 100⟩ rfl (by decide)
  · exact ((getCachedData_fresh_or_absent.2 [("k", ⟨JSValue.num 5, 100⟩)] "k" 300100).2.1
      ⟨JSValue.num 5, 100⟩ rfl (by decide)).1
  · exact (getCachedData_fresh_or_absent.2 [] "k" 0).2.2 rfl

/-- C1 counterexample: supplying the same two query parameters in the
opposite order produces a different cache key, so `getCacheKey` is not
order-independent. -/
theorem getCacheKey_order_dependent :
    getCacheKey "https://pokeapi.co/api/v2/pokemon" [("a", "1"), ("b", "2")] ≠
      getCacheKey "https://pokeapi.co/api/v2/pokemon" [("b", "2"), ("a", "1")] := by
  decide

theorem serializeParams_length_pos (p : String × String) (l : List (String × String)) :
    0 < (serializeParams (p :: l)).length := by
  have h1 : ("=" : String).length = 1 := rfl
  cases l with
  | nil =>
    simp only [serializeParams, encodePair, String.length_append]
    omega
  | cons q l' =>
    simp only [serializeParams, encodePair, String.length_append]
    omega

/-- C1 amended (corrected): the cache key is the URL plus the
`URLSearchParams` serialization of the parameters in the order supplied;
two parameter lists with the same serialization always collide to the
same key, but parameter order can change the key. -/
theorem getCacheKey_serialization_determines_key :
    ∀ (url : String) (ps qs : List (String × String)),
      serializeParams ps = serializeParams qs →
      getCacheKey url ps = getCacheKey url qs := by
  intro url ps qs h
  unfold getCacheKey
  cases ps with
  | nil =>
    cases qs with
    | nil => rfl
    | cons q qs' =>
      exfalso
      have := serializeParams_length_pos q qs'
      rw [← h] at this
      simp [serializeParams] at this
  | cons p ps' =>
    cases qs with
    | nil =>
      exfalso
      have := serializeParams_length_pos p ps'
      rw [h] at this
      simp [serializeParams] at this
    | cons q qs' =>
      simp only [List.length_cons, Nat.succ_sub_one, if_pos (Nat.succ_pos _)]
      rw [h]

/-- C1 amended witness: the key `getPokemonList` derives for
`limit = 151`, `offset = 0` collides with itself. -/
theorem getCacheKey_serialization_determines_key_witness :
    getCacheKey "https://pokeapi.co/api/v2/pokemon" [("limit", "151"), ("offset", "0")] =
      getCacheKey "https://pokeapi.co/api/v2/pokemon" [("limit", "151"), ("offset", "0")] :=
  getCacheKey_serialization_determines_key "https://pokeapi.co/api/v2/pokemon"
    [("limit", "151"), ("offset", "0")] [("limit", "151"), ("offset", "0")] rfl

/-- C10 (confirmed): subscriber registration has set semantics —
subscribing the same callback twice leaves a single registration (the
callback is invoked once per notification), unsubscribing removes only
that callback, and unsubscribing twice is a no-op.  `subs.Nodup` is the
representation invariant of the JavaScript `Set`. -/
theorem subscriber_set_semantics :
    ∀ (subs : Subscribers) (cb : Nat) (snap : LoadingStates),
      (subscribeToLoadingState (subscribeToLoadingState subs cb) cb =
        subscribeToLoadingState subs cb) ∧
      (subs.Nodup →
        List.countP (fun p => p.1 == cb)
          (broadcast (subscribeToLoadingState (subscribeToLoadingState subs cb) cb) snap) = 1) ∧
      (∀ d, d ≠ cb → (d ∈ unsubscribeFromLoadingState subs cb ↔ d ∈ subs)) ∧
      (subs.Nodup →
        unsubscribeFromLoadingState (unsubscribeFromLoadingState subs cb) cb =
          unsubscribeFromLoadingState subs cb) := by
  intro subs cb snap
  have hdouble : subscribeToLoadingState (subscribeToLoadingState subs cb) cb =
      subscribeToLoadingState subs cb := by
    by_cases h : cb ∈ subs
    · simp [subscribeToLoadingState, h]
    · simp [subscribeToLoadingState, h]
  refine ⟨hdouble, ?_, ?_, ?_⟩
  · intro hnd
    rw [hdouble]
    have hcount : List.countP (fun p : Nat × LoadingStates => p.1 == cb)
        (broadcast (subscribeToLoadingState subs cb) snap) =
        List.count cb (subscribeToLoadingState subs cb) := by
      rw [broadcast, List.countP_map]
      rfl
    have hone : List.count cb (subscribeToLoadingState subs cb) = 1 := by
      by_cases h : cb ∈ subs
      · simp only [subscribeToLoadingState, if_pos h]
        exact List.count_eq_one_of_mem hnd h
      · simp only [subscribeToLoadingState, if_neg h]
        rw [List.count_append]
        rw [List.count_eq_zero_of_not_mem h]
        simp
    exact hcount.trans hone
  · intro d hd
    exact List.mem_erase_of_ne hd
  · intro hnd
    have : cb ∉ (subs.erase cb) := by
      intro hmem
      have := List.Nodup.mem_erase_iff hnd |>.mp hmem
      exact this.1 rfl
    simp only [unsubscribeFromLoadingState]
    exact List.erase_of_not_mem this

/-- C10 witness: concrete subscriber list `[3, 7]`, callback `3`. -/
theorem subscriber_set_semantics_witness :
    (subscribeToLoadingState (subscribeToLoadingState [3, 7] 3) 3 =
      subscribeToLoadingState [3, 7] 3) ∧
    List.countP (fun p => p.1 == 3)
      (broadcast (subscribeToLoadingState (subscribeToLoadingState [3, 7] 3) 3)
        initialLoadingStates) = 1 ∧
    (7 ∈ unsubscribeFromLoadingState [3, 7] 3 ↔ 7 ∈ [3, 7]) ∧
    (unsubscribeFromLoadingState (unsubscribeFromLoadingState [3, 7] 3) 3 =
      unsubscribeFromLoadingState [3, 7] 3) := by
  obtain h := subscriber_set_semantics [3, 7] 3 initialLoadingStates
  exact ⟨h.1, h.2.1 (by decide), h.2.2.1 7 (by decide), h.2.2.2 (by decide)⟩

/-- C4 (confirmed): `fetchWithErrorHandling` sets the operation's flag
to true (notified to every subscriber) before the network call, and on
every outcome — success, classified error or rethrown unexpected error —
sets it back to false (again notified) after the call, so a subscriber
registered beforehand observes the flag true before resolution and false
after settlement. -/
theorem fetchWithErrorHandling_loading_lifecycle :
    ∀ (outcome : FetchOutcome) (url : String) (op : Op) (ls : LoadingStates)
      (subs : Subscribers),
      (fetchWithErrorHandling outcome url op ls).events =
        [Event.notif (setOp ls op true), Event.netCall url,
          Event.notif (setOp (setOp ls op true) op false)] ∧
      getOp (setOp ls op true) op = true ∧
      getOp (setOp (setOp ls op true) op false) op = false ∧
      (fetchWithErrorHandling outcome url op ls).loading =
        setOp (setOp ls op true) op false ∧
      deliveries subs (fetchWithErrorHandling outcome url op ls).events =
        broadcast subs (setOp ls op true) ++
          broadcast subs (setOp (setOp ls op true) op false) ∧
      ∀ s, s ∈ subs →
        (s, setOp ls op true) ∈
          deliveries subs (fetchWithErrorHandling outcome url op ls).events ∧
        (s, setOp (setOp ls op true) op false) ∈
          deliveries subs (fetchWithErrorHandling outcome url op ls).events := by
  intro outcome url op ls subs
  have hev : (fetchWithErrorHandling outcome url op ls).events =
      [Event.notif (setOp ls op true), Event.netCall url,
        Event.notif (setOp (setOp ls op true) op false)] := rfl
  have hdel : deliveries subs (fetchWithErrorHandling outcome url op ls).events =
      broadcast subs (setOp ls op true) ++
        broadcast subs (setOp (setOp ls op true) op false) := by
    rw [hev]
    simp [deliveries, broadcast]
  refine ⟨hev, ?_, ?_, rfl, hdel, ?_⟩
  · cases op <;> rfl
  · cases op <;> rfl
  · intro s hs
    rw [hdel]
    constructor
    · exact List.mem_append_left _ (List.mem_map_of_mem _ hs)
    · exact List.mem_append_right _ (List.mem_map_of_mem _ hs)

/-- C4 witness: a failing transport outcome with one registered
subscriber; the subscriber sees the flag go up then down. -/
theorem fetchWithErrorHandling_loading_lifecycle_witness :
    (fetchWithErrorHandling (FetchOutcome.thrown true "fetch failed") "u"
      Op.searchPokemon initialLoadingStates).events =
      [Event.notif ⟨true, false, false⟩, Event.netCall "u",
        Event.notif ⟨false, false, false⟩] ∧
    (1, (⟨true, false, false⟩ : LoadingStates)) ∈
      deliveries [1] (fetchWithErrorHandling (FetchOutcome.thrown true "fetch failed") "u"
        Op.searchPokemon initialLoadingStates).events ∧
    (1, (⟨false, false, false⟩ : LoadingStates)) ∈
      deliveries [1] (fetchWithErrorHandling (FetchOutcome.thrown true "fetch failed") "u"
        Op.searchPokemon initialLoadingStates).events := by
  obtain h := fetchWithErrorHandling_loading_lifecycle (.thrown true "fetch failed") "u"
    .searchPokemon initialLoadingStates [1]
  obtain hm := h.2.2.2.2.2 1 (by decide)
  exact ⟨h.1, hm.1, hm.2⟩

/-- C6 (confirmed): non-2xx responses are classified in the source's
order — 404, then ≥ 500, then 429, then the generic case — always with
the request URL as endpoint; and a JSON decode failure of a 2xx response
yields `PokemonAPIError('Invalid JSON response')` with null status, not
a `NetworkError`. -/
theorem fetchWithErrorHandling_error_classification :
    ∀ (r : HttpResponse) (url : String) (op : Op) (ls : LoadingStates),
      (responseOk r = false → r.status = 404 →
        (fetchWithErrorHandling (.response r) url op ls).result =
          .error (.pokemonAPIError "Resource not found!" (some 404) (some url))) ∧
      (responseOk r = false → 500 ≤ r.status →
        (fetchWithErrorHandling (.response r) url op ls).result =
          .error (.pokemonAPIError ("Server error: " ++ r.statusText)
            (some r.status) (some url))) ∧
      (responseOk r = false → r.status = 429 →
        (fetchWithErrorHandling (.response r) url op ls).result =
          .error (.pokemonAPIError "Too many requests. Please try again later."
            (some 429) (some url))) ∧
      (responseOk r = false → r.status ≠ 404 → r.status < 500 → r.status ≠ 429 →
        (fetchWithErrorHandling (.response r) url op ls).result =
          .error (.pokemonAPIError
            ("HTTP Error: " ++ toString r.status ++ " " ++ r.statusText)
            (some r.status) (some url))) ∧
      (responseOk r = true → ctIncludesJson r.contentType = true → r.body = .decodeErr →
        (fetchWithErrorHandling (.response r) url op ls).result =
          .error (.pokemonAPIError "Invalid JSON response" none (some url))) := by
  intro r url op ls
  have hres : (fetchWithErrorHandling (.response r) url op ls).result =
      fetchCore (.response r) url := rfl
  refine ⟨?_, ?_, ?_, ?_, ?_⟩
  · intro hok h404
    rw [hres]
    simp [fetchCore, hok, h404]
  · intro hok h500
    have h404 : ¬(r.status = 404) := by omega
    rw [hres]
    simp [fetchCore, hok, h404, h500]
  · intro hok h429
    have h404 : ¬(r.status = 404) := by omega
    have h500 : ¬(500 ≤ r.status) := by omega
    rw [hres]
    simp [fetchCore, hok, h404, h500, h429]
  · intro hok h404 hlt h429
    have h500 : ¬(500 ≤ r.status) := by omega
    rw [hres]
    simp [fetchCore, hok, h404, h500, h429]
  · intro hok hct hbody
    rw [hres]
    simp [fetchCore, hok, hct, hbody]

/-- C6 witness: concrete 404, 503, 429, 418 and decode-failure
responses. -/
theorem fetchWithErrorHandling_error_classification_witness :
    (fetchWithErrorHandling
        (.response ⟨404, "Not Found", some "application/json", .value (.obj [])⟩)
        "u" Op.searchPokemon initialLoadingStates).result =
      .error (.pokemonAPIError "Resource not found!" (some 404) (some "u")) ∧
    (fetchWithErrorHandling
        (.response ⟨503, "Service Unavailable", some "application/json", .value (.obj [])⟩)
        "u" Op.searchPokemon initialLoadingStates).result =
      .error (.pokemonAPIError ("Server error: " ++ "Service Unavailable")
        (some 503) (some "u")) ∧
    (fetchWithErrorHandling
        (.response ⟨429, "Too Many Requests", some "application/json", .value (.obj [])⟩)
        "u" Op.searchPokemon initialLoadingStates).result =
      .error (.pokemonAPIError "Too many requests. Please try again later."
        (some 429) (some "u")) ∧
    (fetchWithErrorHandling
        (.response ⟨418, "Teapot", some "application/json", .value (.obj [])⟩)
        "u" Op.searchPokemon initialLoadingStates).result =
      .error (.pokemonAPIError ("HTTP Error: " ++ toString 418 ++ " " ++ "Teapot")
        (some 418) (some "u")) ∧
    (fetchWithErrorHandling
        (.response ⟨200, "OK", some "application/json", .decodeErr⟩)
        "u" Op.searchPokemon initialLoadingStates).result =
      .error (.pokemonAPIError "Invalid JSON response" none (some "u")) := by
  refine ⟨?_, ?_, ?_, ?_, ?_⟩
  · exact (fetchWithErrorHandling_error_classification
      ⟨404, "Not Found", some "application/json", .value (.obj [])⟩ "u"
      .searchPokemon initialLoadingStates).1 (by decide) (by decide)
  · exact (fetchWithErrorHandling_error_classification
      ⟨503, "Service Unavailable", some "application/json", .value (.obj [])⟩ "u"
      .searchPokemon initialLoadingStates).2.1 (by decide) (by decide)
  · exact (fetchWithErrorHandling_error_classification
      ⟨429, "Too Many Requests", some "application/json", .value (.obj [])⟩ "u"
      .searchPokemon initialLoadingStates).2.2.1 (by decide) (by decide)
  · exact (fetchWithErrorHandling_error_classification
      ⟨418, "Teapot", some "application/json", .value (.obj [])⟩ "u"
      .searchPokemon initialLoadingStates).2.2.2.1 (by decide) (by decide) (by decide)
      (by decide)
  · exact (fetchWithErrorHandling_error_classification
      ⟨200, "OK", some "application/json", .decodeErr⟩ "u"
      .searchPokemon initialLoadingStates).2.2.2.2 (by decide) (by decide) rfl

/-- C3 (code bug): `searchPokemon('')` is caught by the `!query` guard —
the empty string is falsy — and rejects with
`'Query parameter is required!'` (note the exclamation mark), not with
`'Query parameter cannot be empty'` as the claim, the spec and the
repository's own unit test expect; `null`, whitespace-only and
invalid-pattern queries behave as shown. -/
theorem searchPokemon_validation_behavior :
    ∀ (net : String → FetchOutcome) (c : Cache) (ls : LoadingStates) (now : Nat),
      (searchPokemon (JSValue.str "") net c ls now).result =
        .error (.pokemonAPIError "Query parameter is required!" none none) ∧
      (searchPokemon JSValue.null net c ls now).result =
        .error (.pokemonAPIError "Query parameter is required!" none none) ∧
      (searchPokemon (JSValue.str "   ") net c ls now).result =
        .error (.pokemonAPIError "Query parameter cannot be empty" none none) ∧
      (searchPokemon (JSValue.str "pika chu") net c ls now).result =
        .error (.pokemonAPIError
          "Query must contain only alphanumeric characters and hyphens" none none) := by
  intro net c ls now
  refine ⟨rfl, rfl, ?_, ?_⟩
  · have h1 : normalizeQuery (JSValue.str "   ") = "" := by
      simp only [normalizeQuery, jsToString]
      decide
    simp [searchPokemon, h1, truthy]
  · have h2 : normalizeQuery (JSValue.str "pika chu") = "pika chu" := by
      simp only [normalizeQuery, jsToString]
      decide
    have h3 : validFormat "pika chu" = false := by decide
    simp [searchPokemon, h2, h3, truthy]

/-! ## Characterization of the domain operations' cache effect -/

/-- `searchPokemon` leaves the cache unchanged, performs only a lookup's
lazy eviction, or writes exactly its own key with the payload it
returned — and the written payload passed the Pokémon shape check. -/
theorem searchPokemon_cache_cases (q : JSValue) (net : String → FetchOutcome)
    (c : Cache) (ls : LoadingStates) (now : Nat) :
    (searchPokemon q net c ls now).cache = c ∨
    (∃ key, (searchPokemon q net c ls now).cache = (getCachedData c key now).2) ∨
    (∃ key data, (searchPokemon q net c ls now).cache =
        setCachedData (getCachedData c key now).2 key data now ∧
      (searchPokemon q net c ls now).result = .ok data ∧
      truthy (getField data "id") = true ∧ truthy (getField data "name") = true ∧
      truthy (getField data "sprites") = true) := by
  simp only [searchPokemon]
  split
  · exact Or.inl rfl
  split
  · exact Or.inl rfl
  split
  · exact Or.inl rfl
  split
  · exact Or.inr (Or.inl ⟨_, rfl⟩)
  split
  case _ data heq =>
    split
    case isTrue => exact Or.inr (Or.inl ⟨_, rfl⟩)
    case isFalse h =>
      refine Or.inr (Or.inr ⟨_, data, rfl, rfl, ?_, ?_, ?_⟩) <;>
        · revert h
          cases truthy (getField data "id") <;> cases truthy (getField data "name") <;>
            cases truthy (getField data "sprites") <;> simp
  case _ e heq =>
    split
    · exact Or.inr (Or.inl ⟨_, rfl⟩)
    · exact Or.inr (Or.inl ⟨_, rfl⟩)

/-- `getPokemonList` leaves the cache unchanged, performs only a
lookup's lazy eviction, or writes exactly its own key with the payload
it returned — and the written payload passed the list shape check. -/
theorem getPokemonList_cache_cases (limit offset : Int) (net : String → FetchOutcome)
    (c : Cache) (ls : LoadingStates) (now : Nat) :
    (getPokemonList limit offset net c ls now).cache = c ∨
    (∃ key, (getPokemonList limit offset net c ls now).cache = (getCachedData c key now).2) ∨
    (∃ key data, (getPokemonList limit offset net c ls now).cache =
        setCachedData (getCachedData c key now).2 key data now ∧
      (getPokemonList limit offset net c ls now).result = .ok data ∧
      truthy (getField data "results") = true ∧ isArray (getField data "results") = true) := by
  simp only [getPokemonList]
  split
  · exact Or.inl rfl
  split
  · exact Or.inl rfl
  split
  · exact Or.inr (Or.inl ⟨_, rfl⟩)
  split
  case _ data heq =>
    split
    case isTrue => exact Or.inr (Or.inl ⟨_, rfl⟩)
    case isFalse h =>
      split
      case isTrue => exact Or.inr (Or.inl ⟨_, rfl⟩)
      case isFalse =>
        refine Or.inr (Or.inr ⟨_, data, rfl, rfl, ?_, ?_⟩) <;>
          · revert h
            cases truthy (getField data "results") <;>
              cases isArray (getField data "results") <;> simp
  case _ e heq =>
    exact Or.inr (Or.inl ⟨_, rfl⟩)

/-- `getPokemonSpecies` leaves the cache unchanged, performs only a
lookup's lazy eviction, or writes exactly its own key with the payload
it returned — and the written payload passed the species shape check. -/
theorem getPokemonSpecies_cache_cases (i : JSValue) (net : String → FetchOutcome)
    (c : Cache) (ls : LoadingStates) (now : Nat) :
    (getPokemonSpecies i net c ls now).cache = c ∨
    (∃ key, (getPokemonSpecies i net c ls now).cache = (getCachedData c key now).2) ∨
    (∃ key data, (getPokemonSpecies i net c ls now).cache =
        setCachedData (getCachedData c key now).2 key data now ∧
      (getPokemonSpecies i net c ls now).result = .ok data ∧
      truthy (getField data "id") = true ∧ truthy (getField data "name") = true) := by
  simp only [getPokemonSpecies]
  split
  · exact Or.inl rfl
  split
  · exact Or.inl rfl
  split
  · exact Or.inl rfl
  split
  · exact Or.inr (Or.inl ⟨_, rfl⟩)
  split
  case _ data heq =>
    split
    case isTrue => exact Or.inr (Or.inl ⟨_, rfl⟩)
    case isFalse h =>
      refine Or.inr (Or.inr ⟨_, data, rfl, rfl, ?_, ?_⟩) <;>
        · revert h
          cases truthy (getField data "id") <;> cases truthy (getField data "name") <;> simp
  case _ e heq =>
    split
    · exact Or.inr (Or.inl ⟨_, rfl⟩)
    · exact Or.inr (Or.inl ⟨_, rfl⟩)

/-- C9 (confirmed): whenever `searchPokemon`, `getPokemonList` or
`getPokemonSpecies` rejects — for validation, transport, HTTP-status,
decode or shape reasons — the cache is left unchanged except for lazy
eviction of an already-stale entry during the lookup; no new entry is
written on any failure path. -/
theorem domainOps_failure_atomic :
    ∀ (net : String → FetchOutcome) (c : Cache) (ls : LoadingStates) (now : Nat),
      (∀ (q : JSValue) (e : APIError),
        (searchPokemon q net c ls now).result = .error e →
        CachePreserved c (searchPokemon q net c ls now).cache now) ∧
      (∀ (limit offset : Int) (e : APIError),
        (getPokemonList limit offset net c ls now).result = .error e →
        CachePreserved c (getPokemonList limit offset net c ls now).cache now) ∧
      (∀ (i : JSValue) (e : APIError),
        (getPokemonSpecies i net c ls now).result = .error e →
        CachePreserved c (getPokemonSpecies i net c ls now).cache now) := by
  intro net c ls now
  refine ⟨?_, ?_, ?_⟩
  · intro q e herr
    rcases searchPokemon_cache_cases q net c ls now with h | ⟨key, h⟩ | ⟨key, data, _, hres, _⟩
    · rw [h]; exact fun k => Or.inl rfl
    · rw [h]; exact getCachedData_preserved c key now
    · rw [herr] at hres; cases hres
  · intro limit offset e herr
    rcases getPokemonList_cache_cases limit offset net c ls now with
      h | ⟨key, h⟩ | ⟨key, data, _, hres, _⟩
    · rw [h]; exact fun k => Or.inl rfl
    · rw [h]; exact getCachedData_preserved c key now
    · rw [herr] at hres; cases hres
  · intro i e herr
    rcases getPokemonSpecies_cache_cases i net c ls now with
      h | ⟨key, h⟩ | ⟨key, data, _, hres, _⟩
    · rw [h]; exact fun k => Or.inl rfl
    · rw [h]; exact getCachedData_preserved c key now
    · rw [herr] at hres; cases hres

/-- C9 witness: three concrete validation failures leave a one-entry
cache untouched. -/
theorem domainOps_failure_atomic_witness :
    CachePreserved [("k", ⟨JSValue.num 1, 5⟩)]
      (searchPokemon JSValue.null (fun _ => FetchOutcome.thrown true "fetch failed")
        [("k", ⟨JSValue.num 1, 5⟩)] initialLoadingStates 0).cache 0 ∧
    CachePreserved [("k", ⟨JSValue.num 1, 5⟩)]
      (getPokemonList 0 0 (fun _ => FetchOutcome.thrown true "fetch failed")
        [("k", ⟨JSValue.num 1, 5⟩)] initialLoadingStates 0).cache 0 ∧
    CachePreserved [("k", ⟨JSValue.num 1, 5⟩)]
      (getPokemonSpecies JSValue.null (fun _ => FetchOutcome.thrown true "fetch failed")
        [("k", ⟨JSValue.num 1, 5⟩)] initialLoadingStates 0).cache 0 := by
  obtain h := domainOps_failure_atomic (fun _ => FetchOutcome.thrown true "fetch failed")
    [("k", ⟨JSValue.num 1, 5⟩)] initialLoadingStates 0
  exact ⟨h.1 JSValue.null (.pokemonAPIError "Query parameter is required!" none none) rfl,
    h.2.1 0 0 (.pokemonAPIError "Limit must be between 1 and 1000" none none) rfl,
    h.2.2 JSValue.null (.pokemonAPIError "ID parameter is required" none none) rfl⟩

/-- C2 counterexample: `batchFetchPokemon` populates the cache with any
decoded JSON body of an ok response — here the empty object, which
fails the domain-shape invariant (no `id`/`name`/`sprites`, no
`results`). -/
theorem batchFetchPokemon_caches_unvalidated_payload :
    cacheFind (batchFetchPokemon (JSValue.arr [JSValue.str "u"]) 5
        (fun _ => FetchOutcome.response
          ⟨200, "OK", some "application/json", .value (JSValue.obj [])⟩)
        [] 0).2 "u" = some ⟨JSValue.obj [], 0⟩ ∧
    ShapeValidPayload (JSValue.obj []) = false := by
  constructor
  · have hmap : [JSValue.str "u"].map jsToString = ["u"] := by
      simp [jsToString]
    simp only [batchFetchPokemon, hmap]
    rw [batchLoop.eq_def]
    simp only []
    rw [batchLoop.eq_def]
    rfl
  · rfl

/-- C2 amended (corrected): every cache entry written by
`searchPokemon`, `getPokemonList` or `getPokemonSpecies` carries a
payload that passed domain-shape validation; any other entry of the
final cache was already in the initial cache.  (`batchFetchPokemon`,
by contrast, caches unvalidated payloads.) -/
theorem domainOps_cache_shape_invariant :
    ∀ (net : String → FetchOutcome) (c : Cache) (ls : LoadingStates) (now : Nat)
      (k : String) (e : CacheEntry),
      (∀ (q : JSValue),
        cacheFind (searchPokemon q net c ls now).cache k = some e →
        cacheFind c k = some e ∨ ShapeValidPayload e.data = true) ∧
      (∀ (limit offset : Int),
        cacheFind (getPokemonList limit offset net c ls now).cache k = some e →
        cacheFind c k = some e ∨ ShapeValidPayload e.data = true) ∧
      (∀ (i : JSValue),
        cacheFind (getPokemonSpecies i net c ls now).cache k = some e →
        cacheFind c k = some e ∨ ShapeValidPayload e.data = true) := by
  intro net c ls now k e
  have third : ∀ (cch : Cache) (key : String) (data : JSValue),
      cacheFind (setCachedData (getCachedData c key now).2 key data now) k = some e →
      ShapeValidPayload data = true →
      cacheFind c k = some e ∨ ShapeValidPayload e.data = true := by
    intro cch key data hfind hshape
    by_cases hk : k = key
    · subst hk
      rw [setCachedData, cacheFind_cacheSet_self] at hfind
      cases hfind
      exact Or.inr hshape
    · rw [setCachedData, cacheFind_cacheSet_ne _ _ _ _ hk] at hfind
      exact Or.inl (cacheFind_getCachedData_sub c key now k e hfind)
  refine ⟨?_, ?_, ?_⟩
  · intro q hfind
    rcases searchPokemon_cache_cases q net c ls now with
      h | ⟨key, h⟩ | ⟨key, data, h, _, hid, hname, hsprites⟩
    · rw [h] at hfind; exact Or.inl hfind
    · rw [h] at hfind; exact Or.inl (cacheFind_getCachedData_sub c key now k e hfind)
    · rw [h] at hfind
      exact third c key data hfind (by simp [ShapeValidPayload, hid, hname, hsprites])
  · intro limit offset hfind
    rcases getPokemonList_cache_cases limit offset net c ls now with
      h | ⟨key, h⟩ | ⟨key, data, h, _, hres, harr⟩
    · rw [h] at hfind; exact Or.inl hfind
    · rw [h] at hfind; exact Or.inl (cacheFind_getCachedData_sub c key now k e hfind)
    · rw [h] at hfind
      exact third c key data hfind (by simp [ShapeValidPayload, hres, harr])
  · intro i hfind
    rcases getPokemonSpecies_cache_cases i net c ls now with
      h | ⟨key, h⟩ | ⟨key, data, h, _, hid, hname⟩
    · rw [h] at hfind; exact Or.inl hfind
    · rw [h] at hfind; exact Or.inl (cacheFind_getCachedData_sub c key now k e hfind)
    · rw [h] at hfind
      exact third c key data hfind (by simp [ShapeValidPayload, hid, hname])

/-- C2 amended witness: a successful `searchPokemon` run from the empty
cache stores a shape-valid Pokémon payload under its key. -/
theorem domainOps_cache_shape_invariant_witness :
    cacheFind [] "https://pokeapi.co/api/v2/pokemon/pikachu" = some
        ⟨JSValue.obj [("id", JSValue.num 25), ("name", JSValue.str "pikachu"),
          ("sprites", JSValue.obj [])], 0⟩ ∨
      ShapeValidPayload (JSValue.obj [("id", JSValue.num 25),
        ("name", JSValue.str "pikachu"), ("sprites", JSValue.obj [])]) = true := by
  refine (domainOps_cache_shape_invariant
    (fun _ => FetchOutcome.response ⟨200, "OK", some "application/json",
      .value (JSValue.obj [("id", JSValue.num 25), ("name", JSValue.str "pikachu"),
        ("sprites", JSValue.obj [])])⟩)
    [] initialLoadingStates 0 "https://pokeapi.co/api/v2/pokemon/pikachu"
    ⟨JSValue.obj [("id", JSValue.num 25), ("name", JSValue.str "pikachu"),
      ("sprites", JSValue.obj [])], 0⟩).1 (JSValue.str "pikachu") ?_
  have hn : normalizeQuery (JSValue.str "pikachu") = "pikachu" := by
    simp only [normalizeQuery, jsToString]
    decide
  simp only [searchPokemon, hn]
  rfl

/-- A value with a truthy property is an object, hence itself truthy. -/
theorem truthy_of_getField (v : JSValue) (s : String)
    (h : truthy (getField v s) = true) : truthy v = true := by
  cases v <;> simp [getField, truthy] at h ⊢

/-- A successful `searchPokemon` that hit the network validated its
input, fetched exactly its canonical URL, and cached the returned
payload (which carries a truthy `id`) under that URL's key. -/
theorem searchPokemon_success_fetch (q : JSValue) (net : String → FetchOutcome)
    (c : Cache) (ls : LoadingStates) (now : Nat) (v : JSValue)
    (hres : (searchPokemon q net c ls now).result = .ok v)
    (hnet : netCalls (searchPokemon q net c ls now).events ≠ []) :
    (normalizeQuery q == "") = false ∧ validFormat (normalizeQuery q) = true ∧
    truthy (getField v "id") = true ∧
    (searchPokemon q net c ls now).cache =
      setCachedData
        (getCachedData c
          (getCacheKey ("https://pokeapi.co/api/v2/pokemon/" ++ normalizeQuery q)) now).2
        (getCacheKey ("https://pokeapi.co/api/v2/pokemon/" ++ normalizeQuery q)) v now ∧
    netCalls (searchPokemon q net c ls now).events =
      ["https://pokeapi.co/api/v2/pokemon/" ++ normalizeQuery q] := by
  revert hres hnet
  simp only [searchPokemon]
  split
  · intro hres; cases hres
  split
  case isTrue h => intro hres; cases hres
  case isFalse hnq =>
    split
    · intro hres; cases hres
    case isFalse hvf =>
      split
      case isTrue => intro _ hnet; exact absurd rfl hnet
      case isFalse hmiss =>
        split
        case _ data heq =>
          split
          case isTrue => intro hres; cases hres
          case isFalse hshape =>
            intro hres _
            cases hres
            refine ⟨by simpa using hnq, by simpa using hvf, ?_, rfl, rfl⟩
            simp at hshape
            exact hshape.1.1
        case _ e heq =>
          split
          · intro hres; cases hres
          · intro hres; cases hres

/-- C7 (confirmed): after a successful `searchPokemon` call that issued
its (single) network request, any second call within `CACHE_DURATION`
whose query normalizes to the same string — e.g. `"PIKACHU"`,
`" pikachu "`, `"pikachu"` — is served from the cache: it issues no
network call, returns the identical payload, and leaves the cache
unchanged; the first call's one outbound request targeted the canonical
URL `…/pokemon/<normalized query>`. -/
theorem searchPokemon_idempotent_cached :
    ∀ (q q' : JSValue) (net net' : String → FetchOutcome) (c : Cache)
      (ls ls' : LoadingStates) (now now' : Nat) (v : JSValue),
      (searchPokemon q net c ls now).result = .ok v →
      netCalls (searchPokemon q net c ls now).events ≠ [] →
      truthy q' = true →
      normalizeQuery q' = normalizeQuery q →
      now' - now < CACHE_DURATION →
      (searchPokemon q' net' (searchPokemon q net c ls now).cache ls' now').result = .ok v ∧
      netCalls (searchPokemon q' net' (searchPokemon q net c ls now).cache ls' now').events
        = [] ∧
      (searchPokemon q' net' (searchPokemon q net c ls now).cache ls' now').cache =
        (searchPokemon q net c ls now).cache ∧
      netCalls (searchPokemon q net c ls now).events =
        ["https://pokeapi.co/api/v2/pokemon/" ++ normalizeQuery q] := by
  intro q q' net net' c ls ls' now now' v hres hnet htq' heq hlt
  obtain ⟨hnq, hvf, hid, hcache, hurl⟩ :=
    searchPokemon_success_fetch q net c ls now v hres hnet
  have htv : truthy v = true := truthy_of_getField v "id" hid
  rw [hcache]
  have hfind : cacheFind
      (setCachedData
        (getCachedData c
          (getCacheKey ("https://pokeapi.co/api/v2/pokemon/" ++ normalizeQuery q)) now).2
        (getCacheKey ("https://pokeapi.co/api/v2/pokemon/" ++ normalizeQuery q)) v now)
      (getCacheKey ("https://pokeapi.co/api/v2/pokemon/" ++ normalizeQuery q)) =
      some ⟨v, now⟩ := by
    rw [setCachedData]
    exact cacheFind_cacheSet_self _ _ _
  have hlk : getCachedData
      (setCachedData
        (getCachedData c
          (getCacheKey ("https://pokeapi.co/api/v2/pokemon/" ++ normalizeQuery q)) now).2
        (getCacheKey ("https://pokeapi.co/api/v2/pokemon/" ++ normalizeQuery q)) v now)
      (getCacheKey ("https://pokeapi.co/api/v2/pokemon/" ++ normalizeQuery q)) now' =
      (v, setCachedData
        (getCachedData c
          (getCacheKey ("https://pokeapi.co/api/v2/pokemon/" ++ normalizeQuery q)) now).2
        (getCacheKey ("https://pokeapi.co/api/v2/pokemon/" ++ normalizeQuery q)) v now) := by
    rw [getCachedData_eq_some _ _ _ _ hfind]
    exact if_pos hlt
  refine ⟨?_, ?_, ?_, hurl⟩ <;>
    · simp only [searchPokemon, htq', heq, hnq, hvf, hlk, htv, Bool.not_true,
        Bool.not_false, if_false, if_true]
      rfl

/-- The network oracle used by the C7 witness: every URL answers with a
valid Pokémon payload. -/
def pikachuPayload : JSValue :=
  JSValue.obj [("id", JSValue.num 25), ("name", JSValue.str "pikachu"),
    ("sprites", JSValue.obj [("front_default", JSValue.str "sprite-url")])]

/-- Network oracle returning `pikachuPayload` for every URL. -/
def pikachuNet : String → FetchOutcome := fun _ =>
  FetchOutcome.response ⟨200, "OK", some "application/json", .value pikachuPayload⟩

/-- C7 witness: `searchPokemon("PIKACHU")` at time 0 from the empty
cache, then `searchPokemon(" pikachu ")` at time 100 with a network that
would fail: the second call still returns the identical payload, issues
no network call, leaves the cache unchanged, and the first call fetched
exactly `…/pokemon/pikachu`. -/
theorem searchPokemon_idempotent_cached_witness :
    (searchPokemon (JSValue.str " pikachu ") (fun _ => FetchOutcome.thrown true "fetch failed")
        (searchPokemon (JSValue.str "PIKACHU") pikachuNet [] initialLoadingStates 0).cache
        initialLoadingStates 100).result = .ok pikachuPayload ∧
    netCalls (searchPokemon (JSValue.str " pikachu ")
        (fun _ => FetchOutcome.thrown true "fetch failed")
        (searchPokemon (JSValue.str "PIKACHU") pikachuNet [] initialLoadingStates 0).cache
        initialLoadingStates 100).events = [] ∧
    (searchPokemon (JSValue.str " pikachu ") (fun _ => FetchOutcome.thrown true "fetch failed")
        (searchPokemon (JSValue.str "PIKACHU") pikachuNet [] initialLoadingStates 0).cache
        initialLoadingStates 100).cache =
      (searchPokemon (JSValue.str "PIKACHU") pikachuNet [] initialLoadingStates 0).cache ∧
    netCalls (searchPokemon (JSValue.str "PIKACHU") pikachuNet []
        initialLoadingStates 0).events = ["https://pokeapi.co/api/v2/pokemon/pikachu"] := by
  have hn : normalizeQuery (JSValue.str "PIKACHU") = "pikachu" := by
    simp only [normalizeQuery, jsToString]
    decide
  have hn' : normalizeQuery (JSValue.str " pikachu ") = normalizeQuery (JSValue.str "PIKACHU") := by
    simp only [normalizeQuery, jsToString]
    decide
  have hres : (searchPokemon (JSValue.str "PIKACHU") pikachuNet []
      initialLoadingStates 0).result = .ok pikachuPayload := by
    simp only [searchPokemon, hn]
    rfl
  have hnet : netCalls (searchPokemon (JSValue.str "PIKACHU") pikachuNet []
      initialLoadingStates 0).events ≠ [] := by
    simp only [searchPokemon, hn]
    decide
  obtain ⟨h1, h2, h3, h4⟩ := searchPokemon_idempotent_cached (JSValue.str "PIKACHU")
    (JSValue.str " pikachu ") pikachuNet (fun _ => FetchOutcome.thrown true "fetch failed")
    [] initialLoadingStates initialLoadingStates 0 100 pikachuPayload
    hres hnet rfl hn' (by decide)
  refine ⟨h1, h2, h3, ?_⟩
  rw [h4, hn]
  rfl

/-! ## Batch-fetcher lemmas -/

/-- A truthy lookup result comes from a fresh entry under the key. -/
theorem getCachedData_truthy_hit (c : Cache) (key : String) (now : Nat)
    (h : truthy (getCachedData c key now).1 = true) :
    ∃ e, cacheFind c key = some e ∧ now - e.timestamp < CACHE_DURATION ∧
      (getCachedData c key now).1 = e.data := by
  cases hf : cacheFind c key with
  | none =>
    rw [getCachedData_eq_none c key now hf] at h
    cases h
  | some e =>
    rw [getCachedData_eq_some c key now e hf] at h ⊢
    by_cases ht : now - e.timestamp < CACHE_DURATION
    · rw [if_pos ht] at h ⊢
      exact ⟨e, rfl, ht, rfl⟩
    · rw [if_neg ht] at h
      cases h

/-- The batch item's fetch continuation, expressed through the decoded
body: a decodable ok body is returned and cached, anything else yields
`null` with the cache untouched. -/
theorem batchFetchOne_spec (c : Cache) (u : String) (net : String → FetchOutcome)
    (now : Nat) :
    batchFetchOne c u net now =
      match batchBody (net u) with
      | some v => (v, setCachedData c (getCacheKey u) v now)
      | none => (JSValue.null, c) := by
  cases hn : net u with
  | thrown a b =>
    rw [batchFetchOne, hn]
    rfl
  | response r =>
    rw [batchFetchOne, hn]
    cases hok : responseOk r with
    | true =>
      simp only [batchBody, hok, Bool.not_true, Bool.false_eq_true, if_false, if_true]
      cases r.body <;> rfl
    | false =>
      simp only [batchBody, hok, Bool.not_false, if_true, Bool.false_eq_true, if_false]

/-- A cache lookup preserves the batch cache invariant. -/
theorem BatchCacheOK_lookup (net : String → FetchOutcome) (now : Nat) (c0 c : Cache)
    (key : String) (hinv : BatchCacheOK net now c0 c) :
    BatchCacheOK net now c0 (getCachedData c key now).2 :=
  fun k e hf => hinv k e (cacheFind_getCachedData_sub c key now k e hf)

/-- Caching a URL's decoded body preserves the batch cache invariant. -/
theorem BatchCacheOK_write (net : String → FetchOutcome) (now : Nat) (c0 c : Cache)
    (u : String) (v : JSValue) (hinv : BatchCacheOK net now c0 c)
    (hb : batchBody (net u) = some v) :
    BatchCacheOK net now c0 (setCachedData c (getCacheKey u) v now) := by
  intro k e hf
  by_cases hk : k = getCacheKey u
  · rw [hk] at hf ⊢
    rw [setCachedData, cacheFind_cacheSet_self] at hf
    cases hf
    exact Or.inr hb
  · rw [setCachedData, cacheFind_cacheSet_ne _ _ _ _ hk] at hf
    exact hinv k e hf

/-- A phase-A hit on an invariant-respecting cache is a sound outcome
for its URL. -/
theorem SlotFor_of_hit (net : String → FetchOutcome) (c0 : Cache) (now : Nat)
    (c : Cache) (u : String) (hinv : BatchCacheOK net now c0 c)
    (h : truthy (getCachedData c (getCacheKey u) now).1 = true) :
    SlotFor net c0 now u (getCachedData c (getCacheKey u) now).1 := by
  obtain ⟨e, hf, hfresh, hdata⟩ := getCachedData_truthy_hit c (getCacheKey u) now h
  rcases hinv (getCacheKey u) e hf with h0 | hb
  · refine Or.inr (Or.inl ⟨e, h0, hfresh, ?_, hdata⟩)
    rw [hdata] at h
    exact h
  · left
    rw [hdata]
    exact hb

/-- Phase A preserves the invariant and relates each slot to its URL,
positionally and in input order. -/
theorem batchPhaseA_sound (net : String → FetchOutcome) (c0 : Cache) (now : Nat) :
    ∀ (w : List String) (c : Cache), BatchCacheOK net now c0 c →
      BatchCacheOK net now c0 (batchPhaseA c w now).2 ∧
      List.Forall₂ (PhaseSlotR net c0 now) (batchPhaseA c w now).1 w := by
  intro w
  induction w with
  | nil => intro c hinv; exact ⟨hinv, List.Forall₂.nil⟩
  | cons u rest ih =>
    intro c hinv
    have hinv1 : BatchCacheOK net now c0 (getCachedData c (getCacheKey u) now).2 :=
      BatchCacheOK_lookup net now c0 c (getCacheKey u) hinv
    obtain ⟨hinv2, hfa⟩ := ih (getCachedData c (getCacheKey u) now).2 hinv1
    refine ⟨?_, ?_⟩
    · simp only [batchPhaseA]
      exact hinv2
    · simp only [batchPhaseA]
      refine List.Forall₂.cons ?_ hfa
      by_cases hh : truthy (getCachedData c (getCacheKey u) now).1 = true
      · rw [if_pos hh]
        exact Or.inr ⟨_, rfl, SlotFor_of_hit net c0 now c u hinv hh⟩
      · rw [if_neg hh]
        exact Or.inl rfl

/-- Phase B preserves the invariant and resolves a sound slot list to a
sound outcome per URL, in order. -/
theorem batchPhaseB_sound (net : String → FetchOutcome) (c0 : Cache) (now : Nat) :
    ∀ {slots : List PhaseASlot} {ws : List String},
      List.Forall₂ (PhaseSlotR net c0 now) slots ws →
      ∀ c : Cache, BatchCacheOK net now c0 c →
      BatchCacheOK net now c0 (batchPhaseB c slots net now).2 ∧
      List.Forall₂ (fun u v => SlotFor net c0 now u v) ws
        (batchPhaseB c slots net now).1 := by
  intro slots ws hf
  induction hf with
  | nil => intro c hinv; exact ⟨hinv, List.Forall₂.nil⟩
  | cons ha htl ih =>
    rename_i s u rest ws2
    intro c hinv
    rcases ha with hmiss | ⟨v, hhit, hslot⟩
    · subst hmiss
      cases hb : batchBody (net u) with
      | some v =>
        have hone : batchFetchOne c u net now =
            (v, setCachedData c (getCacheKey u) v now) := by
          rw [batchFetchOne_spec, hb]
        have hinv' := BatchCacheOK_write net now c0 c u v hinv hb
        obtain ⟨h1, h2⟩ := ih (setCachedData c (getCacheKey u) v now) hinv'
        simp only [batchPhaseB, hone]
        exact ⟨h1, List.Forall₂.cons (Or.inl hb) h2⟩
      | none =>
        have hone : batchFetchOne c u net now = (JSValue.null, c) := by
          rw [batchFetchOne_spec, hb]
        obtain ⟨h1, h2⟩ := ih c hinv
        simp only [batchPhaseB, hone]
        exact ⟨h1, List.Forall₂.cons (Or.inr (Or.inr ⟨rfl, hb⟩)) h2⟩
    · subst hhit
      obtain ⟨h1, h2⟩ := ih c hinv
      simp only [batchPhaseB]
      exact ⟨h1, List.Forall₂.cons hslot h2⟩

/-- One window preserves the invariant and yields one sound outcome per
URL, in input order. -/
theorem batchWindowRun_sound (net : String → FetchOutcome) (c0 : Cache) (now : Nat)
    (w : List String) (c : Cache) (hinv : BatchCacheOK net now c0 c) :
    BatchCacheOK net now c0 (batchWindowRun c w net now).2 ∧
    List.Forall₂ (fun u v => SlotFor net c0 now u v) w (batchWindowRun c w net now).1 := by
  obtain ⟨h1, h2⟩ := batchPhaseA_sound net c0 now w c hinv
  obtain ⟨h3, h4⟩ := batchPhaseB_sound net c0 now h2 (batchPhaseA c w now).2 h1
  exact ⟨h3, h4⟩

/-- The windowed loop returns the in-order filter of one sound per-URL
outcome per slot: URL `i`'s slot holds that URL's decoded body, a fresh
initial-cache entry under that URL's key, or `null` on that URL's
failure; windows concatenate in input order. -/
theorem batchLoop_sound (net : String → FetchOutcome) (now bs : Nat) (hbs : 1 ≤ bs)
    (c0 : Cache) :
    ∀ (n : Nat) (urls : List String), urls.length ≤ n → ∀ (c : Cache),
      BatchCacheOK net now c0 c →
      ∃ slots : List JSValue,
        List.Forall₂ (fun u v => SlotFor net c0 now u v) urls slots ∧
        (batchLoop net now bs c urls).1 = slots.filter (fun v => !(isNull v)) ∧
        BatchCacheOK net now c0 (batchLoop net now bs c urls).2 := by
  intro n
  induction n with
  | zero =>
    intro urls hlen c hinv
    have hurls : urls = [] := List.length_eq_zero.mp (Nat.le_zero.mp hlen)
    subst hurls
    refine ⟨[], List.Forall₂.nil, ?_, ?_⟩
    · rw [batchLoop.eq_def, dif_pos (Or.inl rfl)]
      rfl
    · rw [batchLoop.eq_def, dif_pos (Or.inl rfl)]
      exact hinv
  | succ n ih =>
    intro urls hlen c hinv
    by_cases hemp : urls = []
    · subst hemp
      refine ⟨[], List.Forall₂.nil, ?_, ?_⟩
      · rw [batchLoop.eq_def, dif_pos (Or.inl rfl)]
        rfl
      · rw [batchLoop.eq_def, dif_pos (Or.inl rfl)]
        exact hinv
    · have hcond : ¬(urls = [] ∨ bs = 0) := by
        rintro (h | h)
        · exact hemp h
        · omega
      obtain ⟨hwInv, hwFa⟩ := batchWindowRun_sound net c0 now (urls.take bs) c hinv
      have hdrop : (urls.drop bs).length ≤ n := by
        rw [List.length_drop]
        have hpos : 0 < urls.length := List.length_pos.mpr hemp
        omega
      obtain ⟨slots', hfa', heq', hinv'⟩ := ih (urls.drop bs) hdrop
        (batchWindowRun c (urls.take bs) net now).2 hwInv
      refine ⟨(batchWindowRun c (urls.take bs) net now).1 ++ slots', ?_, ?_, ?_⟩
      · have happ := List.rel_append hwFa hfa'
        have happ2 : List.Forall₂ (fun u v => SlotFor net c0 now u v)
            (urls.take bs ++ urls.drop bs)
            ((batchWindowRun c (urls.take bs) net now).1 ++ slots') := happ
        rwa [List.take_append_drop] at happ2
      · rw [batchLoop.eq_def, dif_neg hcond]
        simp only [List.filter_append]
        rw [heq']
      · rw [batchLoop.eq_def, dif_neg hcond]
        exact hinv'

/-- C8 (confirmed, for every positive batch size): `batchFetchPokemon`
rejects only when the input is not an array (with
`'URLs parameter must be an array'` and the cache untouched); an empty
array resolves to `[]`; and for any array it resolves — never rejecting
on an individual item's failure — to the in-order filter of one outcome
per URL (windows concatenated in input order): URL `i`'s slot holds
that URL's decoded response body, or a fresh truthy entry the initial
cache already held under that URL's key, or `null` exactly when that
URL's fetch fails — the `null` slots are dropped, so the result can be
shorter than the input while survivors keep input order.  (The
JavaScript loop diverges for `batchSize ≤ 0`, unreachable through the
default of 5.) -/
theorem batchFetchPokemon_best_effort :
    ∀ (urls : JSValue) (bs : Nat) (net : String → FetchOutcome) (c : Cache) (now : Nat),
      1 ≤ bs →
      ((∀ l, urls ≠ JSValue.arr l) →
        batchFetchPokemon urls bs net c now =
          (.error (.pokemonAPIError "URLs parameter must be an array" none none), c)) ∧
      (batchFetchPokemon (JSValue.arr []) bs net c now = (.ok [], c)) ∧
      (∀ l, urls = JSValue.arr l →
        ∃ slots : List JSValue,
          slots.length = l.length ∧
          List.Forall₂ (fun u v => SlotFor net c now u v) (l.map jsToString) slots ∧
          (batchFetchPokemon urls bs net c now).1 =
            .ok (slots.filter (fun v => !(isNull v))) ∧
          (slots.filter (fun v => !(isNull v))).length ≤ l.length) := by
  intro urls bs net c now hbs
  refine ⟨?_, rfl, ?_⟩
  · intro hna
    cases urls with
    | arr l => exact absurd rfl (hna l)
    | null => rfl
    | undefined => rfl
    | bool b => rfl
    | num n => rfl
    | str s => rfl
    | obj fields => rfl
  · intro l hl
    subst hl
    by_cases hl0 : l.length = 0
    · have hnil : l = [] := List.length_eq_zero.mp hl0
      subst hnil
      exact ⟨[], rfl, List.Forall₂.nil, rfl, by simp⟩
    · obtain ⟨slots, hfa, heq, _⟩ := batchLoop_sound net now bs hbs c
        (l.map jsToString).length (l.map jsToString) le_rfl c (fun k e hf => Or.inl hf)
      have hlen : slots.length = l.length := by
        have hle := hfa.length_eq
        rw [List.length_map] at hle
        exact hle.symm
      refine ⟨slots, hlen, hfa, ?_, ?_⟩
      · simp only [batchFetchPokemon, if_neg hl0]
        rw [heq]
      · calc (slots.filter (fun v => !(isNull v))).length
            ≤ slots.length := List.length_filter_le _ _
          _ = l.length := hlen

/-- C8 witness: a non-array input rejects; an empty array resolves to
`[]`; for three URLs with three distinct responses whose second returns
404, the theorem applies with batch size 5, and direct evaluation shows
the result is exactly the first and third URLs' distinct payloads in
input order — the failed slot is dropped, survivors keep input order. -/
theorem batchFetchPokemon_best_effort_witness :
    batchFetchPokemon (JSValue.str "x") 5
        (fun _ => FetchOutcome.thrown true "fetch failed") [] 0 =
      (.error (.pokemonAPIError "URLs parameter must be an array" none none), []) ∧
    batchFetchPokemon (JSValue.arr []) 5
        (fun _ => FetchOutcome.thrown true "fetch failed") [] 0 = (.ok [], []) ∧
    (∃ slots : List JSValue, slots.length = 3 ∧
      List.Forall₂
        (fun u v => SlotFor
          (fun u => if u = "u2" then
            FetchOutcome.response ⟨404, "Not Found", some "application/json",
              .value (JSValue.obj [])⟩
          else if u = "u3" then
            FetchOutcome.response ⟨200, "OK", some "application/json",
              .value (JSValue.obj [("id", JSValue.num 3)])⟩
          else
            FetchOutcome.response ⟨200, "OK", some "application/json",
              .value (JSValue.obj [("id", JSValue.num 1)])⟩)
          [] 0 u v)
        ([JSValue.str "u1", JSValue.str "u2", JSValue.str "u3"].map jsToString) slots ∧
      (batchFetchPokemon (JSValue.arr [JSValue.str "u1", JSValue.str "u2", JSValue.str "u3"]) 5
          (fun u => if u = "u2" then
            FetchOutcome.response ⟨404, "Not Found", some "application/json",
              .value (JSValue.obj [])⟩
          else if u = "u3" then
            FetchOutcome.response ⟨200, "OK", some "application/json",
              .value (JSValue.obj [("id", JSValue.num 3)])⟩
          else
            FetchOutcome.response ⟨200, "OK", some "application/json",
              .value (JSValue.obj [("id", JSValue.num 1)])⟩)
          [] 0).1 =
        .ok (slots.filter (fun v => !(isNull v))) ∧
      (slots.filter (fun v => !(isNull v))).length ≤ 3) ∧
    (batchFetchPokemon (JSValue.arr [JSValue.str "u1", JSValue.str "u2", JSValue.str "u3"]) 5
        (fun u => if u = "u2" then
          FetchOutcome.response ⟨404, "Not Found", some "application/json",
            .value (JSValue.obj [])⟩
        else if u = "u3" then
          FetchOutcome.response ⟨200, "OK", some "application/json",
            .value (JSValue.obj [("id", JSValue.num 3)])⟩
        else
          FetchOutcome.response ⟨200, "OK", some "application/json",
            .value (JSValue.obj [("id", JSValue.num 1)])⟩)
        [] 0).1 =
      .ok [JSValue.obj [("id", JSValue.num 1)], JSValue.obj [("id", JSValue.num 3)]] := by
  refine ⟨?_, ?_, ?_, ?_⟩
  · exact (batchFetchPokemon_best_effort (JSValue.str "x") 5
      (fun _ => FetchOutcome.thrown true "fetch failed") [] 0 (by decide)).1
      (fun l h => JSValue.noConfusion h)
  · exact (batchFetchPokemon_best_effort (JSValue.arr []) 5
      (fun _ => FetchOutcome.thrown true "fetch failed") [] 0 (by decide)).2.1
  · exact (batchFetchPokemon_best_effort
      (JSValue.arr [JSValue.str "u1", JSValue.str "u2", JSValue.str "u3"]) 5 _ [] 0
      (by decide)).2.2 [JSValue.str "u1", JSValue.str "u2", JSValue.str "u3"] rfl
  · have hmap : [JSValue.str "u1", JSValue.str "u2", JSValue.str "u3"].map jsToString =
        ["u1", "u2", "u3"] := by
      simp [jsToString]
    simp only [batchFetchPokemon, hmap]
    rw [batchLoop.eq_def]
    simp only []
    rw [batchLoop.eq_def]
    rfl

end PokemonApi
